import Mathlib

/-!
Verification of `output_stdout.c` (squeezelite stdout output with in-band
format signaling, squeeze2diretta v2.0): a shallow embedding of the
format-header builder `build_format_header`, the `output_thread` loop, and
`output_init_stdout`, together with theorems about header emission at track
boundaries, write ordering on the channel, locking discipline and the
scratch-buffer invariant.
-/

namespace OutputStdout

/-- PCM sample formats (`output_format` in the source): 16-bit (`S16_LE`),
24-bit wide (`S24_LE`), 24-bit packed (`S24_3LE`), 32-bit (`S32_LE`).
`otherFmt` stands for an unrecognized/future value; the source's `default:`
branches normalize such values (the spec calls the enumeration "16-bit,
24-bit packed, 24-bit wide, 32-bit" plus unrecognized/future formats). -/
inductive SampleFormat
  | S16_LE
  | S24_LE
  | S24_3LE
  | S32_LE
  | otherFmt
deriving DecidableEq

/-- DSD output sub-format (`output.outfmt` in the source): plain PCM, the
DoP variants (`DOP`, `DOP_S24_LE`, `DOP_S24_3LE`), native DSD in 32-bit
words (`DSD_U32_LE`, `DSD_U32_BE`), and `otherDsd` for any other value,
which falls into the source's `default:` branch. -/
inductive DsdFormat
  | PCM
  | DOP
  | DOP_S24_LE
  | DOP_S24_3LE
  | DSD_U32_LE
  | DSD_U32_BE
  | otherDsd
deriving DecidableEq

/-- The slice of the shared output state read by this module under the
buffer lock: `output.outfmt`, `output.format`, `output.current_sample_rate`
and `output.invert` (the inversion flag is read by the frame renderer but
ignored by the header builder). -/
structure OutputFormatState where
  outfmt : DsdFormat
  format : SampleFormat
  current_sample_rate : Nat
  invert : Bool
deriving DecidableEq

/-- `struct sq_format_header`: 16 bytes total.  `magic` and `reserved` are
kept as 4-byte lists; the numeric fields are the single bytes `version`,
`channels`, `bit_depth`, `dsd_format` and the 32-bit `sample_rate`. -/
structure SqFormatHeader where
  magic : List Nat
  version : Nat
  channels : Nat
  bit_depth : Nat
  dsd_format : Nat
  sample_rate : Nat
  reserved : List Nat
deriving DecidableEq

/-- `build_format_header` from the source: zero the header, install magic
"SQFH" (bytes 0x53 0x51 0x46 0x48), version 1, channels 2 and the current
sample rate; then the DSD switch on `output.outfmt` (DoP variants map to
`dsd_format = 1` with `bit_depth = 24`, `DSD_U32_LE` to 2 and `DSD_U32_BE`
to 3 with `bit_depth = 1`, everything else to 0); finally, when
`dsd_format` ended up 0, the PCM bit-depth switch on `output.format`
(16-bit to 16, both 24-bit variants to 24, default 32). -/
def build_format_header (st : OutputFormatState) : SqFormatHeader :=
  let base : SqFormatHeader :=
    { magic := [0x53, 0x51, 0x46, 0x48]
      version := 1
      channels := 2
      bit_depth := 0
      dsd_format := 0
      sample_rate := st.current_sample_rate % 2 ^ 32
      reserved := [0, 0, 0, 0] }
  let withDsd :=
    match st.outfmt with
    | .PCM => base
    | .DOP | .DOP_S24_LE | .DOP_S24_3LE =>
        { base with dsd_format := 1, bit_depth := 24 }
    | .DSD_U32_LE => { base with dsd_format := 2, bit_depth := 1 }
    | .DSD_U32_BE => { base with dsd_format := 3, bit_depth := 1 }
    | .otherDsd => base
  if withDsd.dsd_format = 0 then
    { withDsd with
      bit_depth :=
        match st.format with
        | .S16_LE => 16
        | .S24_3LE => 24
        | .S24_LE => 24
        | _ => 32 }
  else withDsd

/-- Little-endian byte encoding of a 32-bit value. -/
def le32 (n : Nat) : List Nat :=
  [n % 256, n / 256 % 256, n / 65536 % 256, n / 16777216 % 256]

/-- The wire layout of `struct sq_format_header` (packed, little-endian
multi-byte fields): magic at offsets 0-3, version at 4, channels at 5,
bit_depth at 6, dsd_format at 7, sample_rate at 8-11, reserved at 12-15. -/
def headerBytes (h : SqFormatHeader) : List Nat :=
  h.magic ++ [h.version % 256, h.channels % 256, h.bit_depth % 256, h.dsd_format % 256]
    ++ le32 h.sample_rate ++ h.reserved

/-! ## The output thread loop

`output_thread` is a single loop.  Each iteration, under the buffer lock,
renders up to one block of frames into the scratch buffer (`_output_frames`
calling back into `_stdout_write_frames`, which advances `buffill`) and
evaluates the track-boundary / header logic; then, outside the lock, it
either discards scratch bytes (before the first track), flushes them,
sleeps, and/or writes a pending header.  We embed one iteration as a pure
step function from the loop's local state and the per-iteration inputs
(the values the external producer and renderer supply under the lock) to a
new state plus the sequence of observable actions the iteration performs,
in program order. -/

/-- Observable actions of one loop iteration, in program order:
acquiring/releasing the shared buffer lock, the `fwrite`+`fflush` of
`buffill` frames of audio, the `fwrite`+`fflush` of a 16-byte format
header, and the 10 ms `usleep`. -/
inductive Action
  | lock
  | unlock
  | audioWrite (frames : Nat)
  | headerWrite (h : SqFormatHeader)
  | sleep10ms
deriving DecidableEq

/-- The loop's own state across iterations: the local flags
`first_track_seen` and `header_emitted`, the last emitted
(`sample_rate`, `bit_depth`, `dsd_format`) triple, and the module-static
scratch-buffer fill count `buffill` (in frames). -/
@[ext]
structure LoopState where
  first_track_seen : Bool
  header_emitted : Bool
  last_sample_rate : Nat
  last_bit_depth : Nat
  last_dsd_format : Nat
  buffill : Nat
deriving DecidableEq

/-- State of the loop when the thread starts: both flags false, last
triple zeroed, and `buffill = 0` (set by `output_init_stdout`). -/
def initialLoopState : LoopState :=
  { first_track_seen := false
    header_emitted := false
    last_sample_rate := 0
    last_bit_depth := 0
    last_dsd_format := 0
    buffill := 0 }

/-- What the lock-protected environment supplies to one iteration:
the value of `output.track_started` as read by the loop, the format state
used by `build_format_header`, and the number of frames `_output_frames`
rendered into the scratch buffer during this iteration. -/
structure IterInput where
  track_started : Bool
  fmt : OutputFormatState
  rendered : Nat
deriving DecidableEq

/-- The guard of the header-evaluation block:
`output.track_started && !header_emitted`. -/
def evalBoundary (s : LoopState) (inp : IterInput) : Bool :=
  inp.track_started && !s.header_emitted

/-- The format-change test: first track ever, or the candidate header's
(`sample_rate`, `bit_depth`, `dsd_format`) differs from the last emitted
triple. -/
def tripleChanged (s : LoopState) (hdr : SqFormatHeader) : Bool :=
  !s.first_track_seen || hdr.sample_rate != s.last_sample_rate ||
    hdr.bit_depth != s.last_bit_depth || hdr.dsd_format != s.last_dsd_format

/-- Whether this iteration marks a header as pending: the boundary is
being evaluated and the compared triple changed. -/
def headerPending (s : LoopState) (inp : IterInput) : Bool :=
  evalBoundary s inp && tripleChanged s (build_format_header inp.fmt)

/-- The state updates performed under the lock: `buffill` grows by the
rendered frames; if the boundary is evaluated, `first_track_seen` and
`header_emitted` are set and, on a format change, the last triple is
updated; if `track_started` is false, `header_emitted` is cleared. -/
def lockPhase (s : LoopState) (inp : IterInput) : LoopState :=
  let hdr := build_format_header inp.fmt
  let s1 := { s with buffill := s.buffill + inp.rendered }
  let s2 :=
    if evalBoundary s inp then
      if tripleChanged s hdr then
        { s1 with
          first_track_seen := true
          header_emitted := true
          last_sample_rate := hdr.sample_rate
          last_bit_depth := hdr.bit_depth
          last_dsd_format := hdr.dsd_format }
      else { s1 with first_track_seen := true, header_emitted := true }
    else s1
  if inp.track_started then s2 else { s2 with header_emitted := false }

/-- One full iteration of the `while (running)` loop: lock, render and
evaluate the boundary, unlock; then either the awaiting-first-track branch
(discard scratch bytes and sleep) or the streaming branch (flush pending
audio, else sleep when no header is pending either; then write the pending
header). -/
def outputStep (s : LoopState) (inp : IterInput) : LoopState × List Action :=
  let hdr := build_format_header inp.fmt
  let pending := headerPending s inp
  let s2 := lockPhase s inp
  if !s2.first_track_seen then
    ({ s2 with buffill := 0 }, [.lock, .unlock, .sleep10ms])
  else
    let flushed :=
      if s2.buffill ≠ 0 then
        ({ s2 with buffill := 0 }, [Action.audioWrite s2.buffill])
      else if !pending then (s2, [Action.sleep10ms])
      else (s2, ([] : List Action))
    (flushed.1,
      Action.lock :: Action.unlock ::
        (flushed.2 ++ if pending then [Action.headerWrite hdr] else []))

/-- State after running the loop over a list of iteration inputs. -/
def runState : LoopState → List IterInput → LoopState
  | s, [] => s
  | s, i :: rest => runState (outputStep s i).1 rest

/-- Concatenated action trace of running the loop over a list of
iteration inputs. -/
def loopTrace : LoopState → List IterInput → List Action
  | _, [] => []
  | s, i :: rest => (outputStep s i).2 ++ loopTrace (outputStep s i).1 rest

/-- The states at the top of each iteration (the first entry is the state
entering the first iteration). -/
def loopStates : LoopState → List IterInput → List LoopState
  | s, [] => [s]
  | s, i :: rest => s :: loopStates (outputStep s i).1 rest

/-- Action trace with each action tagged by the index of the iteration
that performed it; `k` is the index of the first iteration. -/
def indexedTrace : Nat → LoopState → List IterInput → List (Nat × Action)
  | _, _, [] => []
  | k, s, i :: rest =>
      (outputStep s i).2.map (fun a => (k, a)) ++ indexedTrace (k + 1) (outputStep s i).1 rest

/-- Channel writes: the actions that put bytes on stdout. -/
def isChannelWrite : Action → Bool
  | .audioWrite _ => true
  | .headerWrite _ => true
  | _ => false

/-- The subsequence of a trace that writes to the channel. -/
def channelWrites (tr : List Action) : List Action :=
  tr.filter isChannelWrite

/-- The sequence of headers written by a trace, in order. -/
def headersOf (tr : List Action) : List SqFormatHeader :=
  tr.filterMap fun a =>
    match a with
    | .headerWrite h => some h
    | _ => none

/-- The formats at the iterations whose track boundary gets evaluated.
An iteration evaluates the boundary iff `track_started && !header_emitted`
holds on entry; since `header_emitted` after every iteration equals that
iteration's `track_started` value, the flag threaded here is simply the
previous iteration's `track_started`.  These are the rising edges of the
`track_started` signal: one per track boundary. -/
def boundaryFormats : Bool → List IterInput → List OutputFormatState
  | _, [] => []
  | emitted, i :: rest =>
      (if i.track_started && !emitted then [i.fmt] else []) ++
        boundaryFormats i.track_started rest

/-- Follows the spec's words (§8, Header-on-change): for a sequence of
track formats, a header is emitted before track i iff i = 1 or track i's
(rate, depth, dsd-format) triple differs from the triple of the most
recently emitted header; only those three fields are compared. -/
def specHeaderOnChange : Bool → Nat → Nat → Nat → List OutputFormatState → List SqFormatHeader
  | _, _, _, _, [] => []
  | seen, r, d, g, f :: rest =>
      let h := build_format_header f
      if !seen || h.sample_rate != r || h.bit_depth != d || h.dsd_format != g then
        h :: specHeaderOnChange true h.sample_rate h.bit_depth h.dsd_format rest
      else specHeaderOnChange true r d g rest

/-- Scan a trace tracking the lock depth: `true` iff every channel write
occurs at depth 0, i.e. while the thread holds no lock. -/
def writesOutsideLock : Nat → List Action → Bool
  | _, [] => true
  | d, Action.lock :: r => writesOutsideLock (d + 1) r
  | d, Action.unlock :: r => writesOutsideLock (d - 1) r
  | d, Action.audioWrite _ :: r => d == 0 && writesOutsideLock d r
  | d, Action.headerWrite _ :: r => d == 0 && writesOutsideLock d r
  | d, Action.sleep10ms :: r => writesOutsideLock d r

/-- The `bytes_per_frame` selection at `output_thread` startup (the switch
on `output.format`): 8 for `S32_LE`, 6 for `S24_3LE`, 4 for `S16_LE`,
default 8. -/
def bytes_per_frame_of : SampleFormat → Nat
  | .S32_LE => 8
  | .S24_3LE => 6
  | .S16_LE => 4
  | _ => 8

/-- Modelled from the spec: the per-frame allocation unit of the scratch
buffer (the `BYTES_PER_FRAME` constant comes from squeezelite.h, which is
not part of this module's source).  The spec sizes the scratch buffer for
"one block of frames at the maximum supported bytes-per-frame", which is
8 bytes for two 32-bit samples; the source allocates
`buf = malloc(FRAME_BLOCK * BYTES_PER_FRAME)`. -/
def BYTES_PER_FRAME : Nat := 8

/-- Modelled from the spec: `_output_frames` (defined in output.c, which
is not part of this module's source) renders no frames into the scratch
buffer during the call that first reports a track boundary — the spec's
contract that "the very first bytes written to the channel are always a
complete header" and that a new track's audio is "accumulated starting
the following iteration". -/
def rendersNothingAtFirstBoundary (b : IterInput) : Prop := b.rendered = 0

/-! ## Initialization (`output_init_stdout`) -/

/-- The fields of the shared output state that `output_init_stdout`
configures before starting the thread. -/
structure OutputConfig where
  format : SampleFormat
  start_frames : Nat
  rate_delay : Nat
deriving DecidableEq

/-- Observable outcome of `output_init_stdout`: whether the allocation
failure was logged, the `buffill` value stored (none when the function
returned before touching it), the output-state configuration written
(none when the state was left untouched), the `rates[0]` value passed to
`output_init_common` (none when it was never called), and whether the
output thread was spawned. -/
structure InitResult where
  error_logged : Bool
  buffill : Option Nat
  config : Option OutputConfig
  common_rate0 : Option Nat
  thread_spawned : Bool
deriving DecidableEq

/-- `output_init_stdout`: allocate the scratch buffer (`mallocOk` is the
outcome of the `malloc` call); on failure log an error and return at
once.  Otherwise reset `buffill`, zero the output state and set the
defaults (`S32_LE`, `start_frames = FRAME_BLOCK * 2`, the given rate
delay), apply the "32"/"24"/"16" params override, replace an unset
`rates[0]` with 44100, hand off to `output_init_common`, and spawn
`output_thread`.  `frame_block` stands for the `FRAME_BLOCK` constant. -/
def output_init_stdout (mallocOk : Bool) (params : Option String) (rates0 : Nat)
    (rate_delay : Nat) (frame_block : Nat) : InitResult :=
  if !mallocOk then
    { error_logged := true
      buffill := none
      config := none
      common_rate0 := none
      thread_spawned := false }
  else
    let fmt0 := SampleFormat.S32_LE
    let fmt1 := if params = some "32" then SampleFormat.S32_LE else fmt0
    let fmt2 := if params = some "24" then SampleFormat.S24_3LE else fmt1
    let fmt3 := if params = some "16" then SampleFormat.S16_LE else fmt2
    let r := if rates0 = 0 then 44100 else rates0
    { error_logged := false
      buffill := some 0
      config := some { format := fmt3, start_frames := frame_block * 2, rate_delay := rate_delay }
      common_rate0 := some r
      thread_spawned := true }

/-! ### Step lemmas -/

lemma headerBytes_build_length (st : OutputFormatState) :
    (headerBytes (build_format_header st)).length = 16 := by
  cases st with
  | mk o f r iv =>
    cases o <;> simp [build_format_header, headerBytes, le32]

lemma evalBoundary_track_started {s : LoopState} {i : IterInput}
    (h : evalBoundary s i = true) : i.track_started = true := by
  simp only [evalBoundary, Bool.and_eq_true] at h
  exact h.1

lemma lockPhase_buffill (s : LoopState) (i : IterInput) :
    (lockPhase s i).buffill = s.buffill + i.rendered := by
  unfold lockPhase
  by_cases hb : evalBoundary s i = true <;>
    by_cases hc : tripleChanged s (build_format_header i.fmt) = true <;>
      cases hts : i.track_started <;> simp [hb, hc, hts]

lemma lockPhase_header_emitted (s : LoopState) (i : IterInput) :
    (lockPhase s i).header_emitted = i.track_started := by
  unfold lockPhase
  cases hts : i.track_started with
  | false => simp [evalBoundary, hts]
  | true =>
    cases hhe : s.header_emitted with
    | false =>
      by_cases hc : tripleChanged s (build_format_header i.fmt) = true <;>
        simp [evalBoundary, hts, hhe, hc]
    | true => simp [evalBoundary, hts, hhe]

lemma lockPhase_first_track_seen (s : LoopState) (i : IterInput) :
    (lockPhase s i).first_track_seen = (s.first_track_seen || evalBoundary s i) := by
  unfold lockPhase
  by_cases hb : evalBoundary s i = true
  · have hts := evalBoundary_track_started hb
    by_cases hc : tripleChanged s (build_format_header i.fmt) = true <;> simp [hb, hc, hts]
  · cases hts : i.track_started <;> simp [hb, hts, Bool.eq_false_iff.mpr hb]

lemma lockPhase_last_sample_rate (s : LoopState) (i : IterInput) :
    (lockPhase s i).last_sample_rate =
      if headerPending s i then (build_format_header i.fmt).sample_rate
      else s.last_sample_rate := by
  unfold lockPhase headerPending
  by_cases hb : evalBoundary s i = true <;>
    by_cases hc : tripleChanged s (build_format_header i.fmt) = true <;>
      cases hts : i.track_started <;> simp [hb, hc, hts]

lemma lockPhase_last_bit_depth (s : LoopState) (i : IterInput) :
    (lockPhase s i).last_bit_depth =
      if headerPending s i then (build_format_header i.fmt).bit_depth
      else s.last_bit_depth := by
  unfold lockPhase headerPending
  by_cases hb : evalBoundary s i = true <;>
    by_cases hc : tripleChanged s (build_format_header i.fmt) = true <;>
      cases hts : i.track_started <;> simp [hb, hc, hts]

lemma lockPhase_last_dsd_format (s : LoopState) (i : IterInput) :
    (lockPhase s i).last_dsd_format =
      if headerPending s i then (build_format_header i.fmt).dsd_format
      else s.last_dsd_format := by
  unfold lockPhase headerPending
  by_cases hb : evalBoundary s i = true <;>
    by_cases hc : tripleChanged s (build_format_header i.fmt) = true <;>
      cases hts : i.track_started <;> simp [hb, hc, hts]

lemma pending_first_track_seen {s : LoopState} {i : IterInput}
    (h : headerPending s i = true) : (lockPhase s i).first_track_seen = true := by
  simp only [headerPending, Bool.and_eq_true] at h
  simp [lockPhase_first_track_seen, h.1]

lemma outputStep_fst (s : LoopState) (i : IterInput) :
    (outputStep s i).1 = { lockPhase s i with buffill := 0 } := by
  unfold outputStep
  by_cases h1 : (lockPhase s i).first_track_seen = true
  · by_cases h2 : (lockPhase s i).buffill = 0
    · by_cases h3 : headerPending s i = true <;>
        · simp [h1, h2, h3]
          cases hlp : lockPhase s i
          simp_all
    · simp [h1, h2]
  · simp [Bool.eq_false_iff.mpr h1]

lemma outputStep_buffill (s : LoopState) (i : IterInput) :
    ((outputStep s i).1).buffill = 0 := by
  rw [outputStep_fst]

lemma outputStep_header_emitted (s : LoopState) (i : IterInput) :
    ((outputStep s i).1).header_emitted = i.track_started := by
  rw [outputStep_fst]
  exact lockPhase_header_emitted s i

lemma outputStep_first_track_seen (s : LoopState) (i : IterInput) :
    ((outputStep s i).1).first_track_seen = (s.first_track_seen || evalBoundary s i) := by
  rw [outputStep_fst]
  exact lockPhase_first_track_seen s i

/-- The actions of one iteration take one of four shapes: lock/unlock then
a sleep, a full flush of the scratch buffer, a header write, or a flush
followed by a header write. -/
lemma outputStep_snd_cases (s : LoopState) (i : IterInput) :
    (outputStep s i).2 = [.lock, .unlock, .sleep10ms] ∨
    (outputStep s i).2 = [.lock, .unlock, .audioWrite (s.buffill + i.rendered)] ∨
    (outputStep s i).2 = [.lock, .unlock, .headerWrite (build_format_header i.fmt)] ∨
    (outputStep s i).2 =
      [.lock, .unlock, .audioWrite (s.buffill + i.rendered),
        .headerWrite (build_format_header i.fmt)] := by
  unfold outputStep
  by_cases h1 : (lockPhase s i).first_track_seen = true
  · by_cases h2 : (lockPhase s i).buffill = 0
    · by_cases h3 : headerPending s i = true <;> simp [h1, h2, h3]
    · by_cases h3 : headerPending s i = true <;>
        · simp [h1, h2, h3]
          simp [lockPhase_buffill]
  · simp [Bool.eq_false_iff.mpr h1]

/-- Headers written by one iteration: exactly the candidate header when it
is pending, nothing otherwise. -/
lemma outputStep_headersOf (s : LoopState) (i : IterInput) :
    headersOf (outputStep s i).2 =
      if headerPending s i then [build_format_header i.fmt] else [] := by
  unfold outputStep
  by_cases h3 : headerPending s i = true
  · have h1 := pending_first_track_seen h3
    by_cases h2 : (lockPhase s i).buffill = 0 <;> simp [h1, h2, h3, headersOf]
  · by_cases h1 : (lockPhase s i).first_track_seen = true
    · by_cases h2 : (lockPhase s i).buffill = 0 <;> simp [h1, h2, h3, headersOf]
    · simp [Bool.eq_false_iff.mpr h1, h3, headersOf]

lemma outputStep_last_sample_rate (s : LoopState) (i : IterInput) :
    ((outputStep s i).1).last_sample_rate =
      if headerPending s i then (build_format_header i.fmt).sample_rate
      else s.last_sample_rate := by
  rw [outputStep_fst]
  exact lockPhase_last_sample_rate s i

lemma outputStep_last_bit_depth (s : LoopState) (i : IterInput) :
    ((outputStep s i).1).last_bit_depth =
      if headerPending s i then (build_format_header i.fmt).bit_depth
      else s.last_bit_depth := by
  rw [outputStep_fst]
  exact lockPhase_last_bit_depth s i

lemma outputStep_last_dsd_format (s : LoopState) (i : IterInput) :
    ((outputStep s i).1).last_dsd_format =
      if headerPending s i then (build_format_header i.fmt).dsd_format
      else s.last_dsd_format := by
  rw [outputStep_fst]
  exact lockPhase_last_dsd_format s i

lemma headersOf_append (a b : List Action) :
    headersOf (a ++ b) = headersOf a ++ headersOf b := by
  simp [headersOf]

/-! ### The header-on-change refinement -/

lemma headersOf_loopTrace (inputs : List IterInput) :
    ∀ s : LoopState,
      headersOf (loopTrace s inputs) =
        specHeaderOnChange s.first_track_seen s.last_sample_rate s.last_bit_depth
          s.last_dsd_format (boundaryFormats s.header_emitted inputs) := by
  induction inputs with
  | nil => intro s; rfl
  | cons i rest ih =>
    intro s
    rw [show loopTrace s (i :: rest) =
        (outputStep s i).2 ++ loopTrace (outputStep s i).1 rest from rfl]
    rw [headersOf_append, outputStep_headersOf, ih]
    rw [outputStep_first_track_seen, outputStep_header_emitted,
      outputStep_last_sample_rate, outputStep_last_bit_depth, outputStep_last_dsd_format]
    by_cases hE : evalBoundary s i = true
    · have hts := evalBoundary_track_started hE
      have hbf : (i.track_started && !s.header_emitted) = true := hE
      have hHe : s.header_emitted = false := by
        have h0 := hE
        simp only [evalBoundary, Bool.and_eq_true, Bool.not_eq_true'] at h0
        exact h0.2
      by_cases hC : tripleChanged s (build_format_header i.fmt) = true
      · have hP : headerPending s i = true := by
          simp [headerPending, hE, hC]
        have hC2 :
            (!s.first_track_seen ||
              (build_format_header i.fmt).sample_rate != s.last_sample_rate ||
              (build_format_header i.fmt).bit_depth != s.last_bit_depth ||
              (build_format_header i.fmt).dsd_format != s.last_dsd_format) = true := hC
        simp [boundaryFormats, specHeaderOnChange, hbf, hC2, hP, hE, hts, hHe]
      · have hP : headerPending s i = false := by
          simp [headerPending, hC]
        have hC2 :
            (!s.first_track_seen ||
              (build_format_header i.fmt).sample_rate != s.last_sample_rate ||
              (build_format_header i.fmt).bit_depth != s.last_bit_depth ||
              (build_format_header i.fmt).dsd_format != s.last_dsd_format) = false := by
          simpa [tripleChanged] using hC
        have hSeen : s.first_track_seen = true := by
          cases hs0 : s.first_track_seen with
          | true => rfl
          | false => exact absurd (by simp [tripleChanged, hs0]) hC
        have h4 : (build_format_header i.fmt).sample_rate = s.last_sample_rate ∧
            (build_format_header i.fmt).bit_depth = s.last_bit_depth ∧
            (build_format_header i.fmt).dsd_format = s.last_dsd_format := by
          have h0 := hC2
          simp only [hSeen, Bool.not_true, Bool.false_or] at h0
          simp only [Bool.or_eq_false_iff, bne_eq_false_iff_eq] at h0
          exact ⟨h0.1.1, h0.1.2, h0.2⟩
        simp [boundaryFormats, specHeaderOnChange, hbf, hP, hE, hts, hSeen, hHe,
          h4.1, h4.2.1, h4.2.2]
    · have hP : headerPending s i = false := by
        simp [headerPending, hE]
      have hbf : (i.track_started && !s.header_emitted) = false := by
        simpa [evalBoundary] using hE
      simp [boundaryFormats, specHeaderOnChange, hbf, hP, hE]

/-! ### Trace decomposition and the quiet prefix -/

lemma loopTrace_append (l1 l2 : List IterInput) :
    ∀ s, loopTrace s (l1 ++ l2) = loopTrace s l1 ++ loopTrace (runState s l1) l2 := by
  induction l1 with
  | nil => intro s; rfl
  | cons i rest ih =>
    intro s
    calc loopTrace s ((i :: rest) ++ l2)
        = (outputStep s i).2 ++ loopTrace (outputStep s i).1 (rest ++ l2) := rfl
      _ = (outputStep s i).2 ++ (loopTrace (outputStep s i).1 rest ++
            loopTrace (runState (outputStep s i).1 rest) l2) := by rw [ih]
      _ = loopTrace s (i :: rest) ++ loopTrace (runState s (i :: rest)) l2 :=
        (List.append_assoc _ _ _).symm

lemma channelWrites_append (a b : List Action) :
    channelWrites (a ++ b) = channelWrites a ++ channelWrites b := by
  simp [channelWrites]

/-- An iteration entering with the pristine pre-track state and no track
boundary just discards and sleeps, leaving the state unchanged. -/
lemma outputStep_quiet {s : LoopState} {i : IterInput}
    (hseen : s.first_track_seen = false) (hem : s.header_emitted = false)
    (hbuf : s.buffill = 0) (hts : i.track_started = false) :
    outputStep s i = (s, [Action.lock, Action.unlock, Action.sleep10ms]) := by
  have hE : evalBoundary s i = false := by simp [evalBoundary, hts]
  have hP : headerPending s i = false := by simp [headerPending, hE]
  have h1 : (lockPhase s i).first_track_seen = false := by
    rw [lockPhase_first_track_seen, hseen, hE]
    rfl
  have hfst : (outputStep s i).1 = s := by
    rw [outputStep_fst]
    ext
    · rw [lockPhase_first_track_seen, hseen, hE]
      rfl
    · rw [lockPhase_header_emitted, hts, hem]
    · rw [lockPhase_last_sample_rate]
      simp [hP]
    · rw [lockPhase_last_bit_depth]
      simp [hP]
    · rw [lockPhase_last_dsd_format]
      simp [hP]
    · exact hbuf.symm
  have hsnd : (outputStep s i).2 = [Action.lock, Action.unlock, Action.sleep10ms] := by
    unfold outputStep
    simp [h1]
  calc outputStep s i = ((outputStep s i).1, (outputStep s i).2) := rfl
    _ = (s, [Action.lock, Action.unlock, Action.sleep10ms]) := by rw [hfst, hsnd]

/-- Before any track boundary was ever reported, the loop writes nothing
and stays in the pristine state. -/
lemma quiet_prefix (pre : List IterInput)
    (hpre : ∀ x ∈ pre, x.track_started = false) :
    runState initialLoopState pre = initialLoopState ∧
      channelWrites (loopTrace initialLoopState pre) = [] := by
  induction pre with
  | nil => exact ⟨rfl, rfl⟩
  | cons i rest ih =>
    have hi : i.track_started = false := hpre i (by simp)
    have hstep := outputStep_quiet (s := initialLoopState) (i := i) rfl rfl rfl hi
    have hrest := ih (fun x hx => hpre x (by simp [hx]))
    constructor
    · show runState (outputStep initialLoopState i).1 rest = initialLoopState
      rw [hstep]
      exact hrest.1
    · show channelWrites ((outputStep initialLoopState i).2 ++
        loopTrace (outputStep initialLoopState i).1 rest) = []
      rw [hstep, channelWrites_append, hrest.2]
      rfl

/-! ### Indexed-trace ordering -/

lemma indexedTrace_fst_ge (inputs : List IterInput) :
    ∀ k s p, p ∈ indexedTrace k s inputs → k ≤ p.1 := by
  induction inputs with
  | nil => intro k s p hp; simp [indexedTrace] at hp
  | cons i rest ih =>
    intro k s p hp
    simp only [indexedTrace, List.mem_append, List.mem_map] at hp
    rcases hp with ⟨a, _, rfl⟩ | hp
    · exact le_refl k
    · exact Nat.le_of_succ_le (ih (k + 1) _ p hp)

lemma indexedTrace_pairwise (inputs : List IterInput) :
    ∀ k s, List.Pairwise (fun a b => a.1 ≤ b.1) (indexedTrace k s inputs) := by
  induction inputs with
  | nil => intro k s; simp [indexedTrace]
  | cons i rest ih =>
    intro k s
    simp only [indexedTrace]
    rw [List.pairwise_append]
    refine ⟨?_, ih (k + 1) _, ?_⟩
    · have : ∀ l : List Action, List.Pairwise (fun a b : Nat × Action => a.1 ≤ b.1)
          (l.map (fun a => (k, a))) := by
        intro l
        induction l with
        | nil => simp
        | cons x xs ihx =>
          simp only [List.map_cons]
          refine List.Pairwise.cons ?_ ihx
          intro b hb
          simp only [List.mem_map] at hb
          rcases hb with ⟨a, _, rfl⟩
          exact le_refl k
      exact this _
    · intro a ha b hb
      simp only [List.mem_map] at ha
      rcases ha with ⟨x, _, rfl⟩
      exact Nat.le_of_succ_le (indexedTrace_fst_ge rest (k + 1) _ b hb)

/-! ### Lock discipline -/

lemma writesOutsideLock_iter (s : LoopState) (i : IterInput) (rest : List Action) :
    writesOutsideLock 0 ((outputStep s i).2 ++ rest) = writesOutsideLock 0 rest := by
  rcases outputStep_snd_cases s i with h | h | h | h <;>
    rw [h] <;> simp [writesOutsideLock]

lemma writesOutsideLock_trace (inputs : List IterInput) :
    ∀ s, writesOutsideLock 0 (loopTrace s inputs) = true := by
  induction inputs with
  | nil => intro s; rfl
  | cons i rest ih =>
    intro s
    show writesOutsideLock 0 ((outputStep s i).2 ++ loopTrace (outputStep s i).1 rest) = true
    rw [writesOutsideLock_iter]
    exact ih _

/-! ### Header placement within an iteration -/

lemma headerWrite_mem_cases {s : LoopState} {i : IterInput} {h : SqFormatHeader}
    (hmem : Action.headerWrite h ∈ (outputStep s i).2) :
    (outputStep s i).2 = [.lock, .unlock, .headerWrite h] ∨
    (outputStep s i).2 = [.lock, .unlock, .audioWrite (s.buffill + i.rendered),
      .headerWrite h] := by
  rcases outputStep_snd_cases s i with hc | hc | hc | hc <;> rw [hc] at hmem ⊢
  · simp at hmem
  · simp at hmem
  · have h1 : h = build_format_header i.fmt := by simpa using hmem
    left
    rw [h1]
  · have h1 : h = build_format_header i.fmt := by simpa using hmem
    right
    rw [h1]

/-! ## Claims -/

/-- C1: for every sequence of iterations processed by the output thread
(from its initial state), the format headers written to the channel are
exactly those the spec's header-on-change rule produces from the formats
at the track boundaries (the rising edges of `track_started`): a header is
emitted before track i iff i is the first track ever observed or its
(sample_rate, bit_depth, dsd_format) triple differs from the triple of the
most recently emitted header.  Only the triple is compared, so two
consecutive tracks with an identical triple never produce two headers,
even if other state such as the inversion flag differs. -/
theorem c1_header_on_change (inputs : List IterInput) :
    headersOf (loopTrace initialLoopState inputs) =
      specHeaderOnChange false 0 0 0 (boundaryFormats false inputs) :=
  headersOf_loopTrace inputs initialLoopState

/-- C2: zero bytes reach the channel before the first format header.  For
any run from the initial state, (a) if the first iteration reporting a
track boundary renders nothing into the scratch buffer (the behaviour of
the external renderer, modelled from the spec), then the very first
channel write of the whole trace is a complete 16-byte header; and (b)
while no track boundary has ever been observed the loop performs no
channel write and discards all accumulated scratch bytes (`buffill` is
back to 0 after any such prefix). -/
theorem c2_no_pretrack_leakage :
    (∀ pre b rest, (∀ x ∈ pre, x.track_started = false) →
      b.track_started = true → rendersNothingAtFirstBoundary b →
      ∃ h tl, channelWrites (loopTrace initialLoopState (pre ++ b :: rest)) =
          Action.headerWrite h :: tl ∧ (headerBytes h).length = 16) ∧
    (∀ pre, (∀ x ∈ pre, x.track_started = false) →
      channelWrites (loopTrace initialLoopState pre) = [] ∧
        (runState initialLoopState pre).buffill = 0) := by
  constructor
  · intro pre b rest hpre hb hr
    have hr0 : b.rendered = 0 := hr
    obtain ⟨hst, hwr⟩ := quiet_prefix pre hpre
    rw [loopTrace_append, channelWrites_append, hwr, hst]
    have hE : evalBoundary initialLoopState b = true := by
      simp [evalBoundary, initialLoopState, hb]
    have hP : headerPending initialLoopState b = true := by
      simp [headerPending, evalBoundary, tripleChanged, initialLoopState, hb]
    have h1 : (lockPhase initialLoopState b).first_track_seen = true :=
      pending_first_track_seen hP
    have h2 : (lockPhase initialLoopState b).buffill = 0 := by
      rw [lockPhase_buffill]
      simp [initialLoopState, hr0]
    have hsnd : (outputStep initialLoopState b).2 =
        [Action.lock, Action.unlock, Action.headerWrite (build_format_header b.fmt)] := by
      unfold outputStep
      simp [h1, h2, hP]
    refine ⟨build_format_header b.fmt,
      channelWrites (loopTrace (outputStep initialLoopState b).1 rest), ?_,
      headerBytes_build_length _⟩
    show channelWrites ((outputStep initialLoopState b).2 ++
        loopTrace (outputStep initialLoopState b).1 rest) = _
    rw [channelWrites_append, hsnd]
    rfl
  · intro pre hpre
    obtain ⟨hst, hwr⟩ := quiet_prefix pre hpre
    refine ⟨hwr, ?_⟩
    rw [hst]
    rfl

/-- Witness for C2: one silent pre-track iteration, then the first track
boundary; the first channel write is the 16-byte header. -/
theorem c2_no_pretrack_leakage_witness :
    (∀ x ∈ [(⟨false, ⟨.PCM, .S32_LE, 44100, false⟩, 3⟩ : IterInput)],
      x.track_started = false) ∧
    (⟨true, ⟨.PCM, .S32_LE, 44100, false⟩, 0⟩ : IterInput).track_started = true ∧
    rendersNothingAtFirstBoundary ⟨true, ⟨.PCM, .S32_LE, 44100, false⟩, 0⟩ ∧
    ∃ h tl, channelWrites (loopTrace initialLoopState
        ([⟨false, ⟨.PCM, .S32_LE, 44100, false⟩, 3⟩] ++
          (⟨true, ⟨.PCM, .S32_LE, 44100, false⟩, 0⟩ : IterInput) :: [])) =
        Action.headerWrite h :: tl ∧ (headerBytes h).length = 16 :=
  ⟨by decide, rfl, rfl,
    c2_no_pretrack_leakage.1 _ _ [] (by decide) rfl rfl⟩

/-- C3: write ordering around a track boundary.  (a) Channel actions are
ordered by iteration index: the indexed trace is pairwise monotone, so all
audio flushed at iterations before (and in) the boundary iteration appears
before the header, and all audio of later iterations appears after it.
(b) Within the boundary iteration itself, the actions are exactly
lock/unlock followed by the header alone, or by a full flush of all
previously accumulated scratch bytes strictly before the header.  (c) A
header-emitting iteration leaves the scratch buffer empty, so the new
track's audio is accumulated only starting the following iteration. -/
theorem c3_boundary_ordering :
    (∀ (k : Nat) (s : LoopState) (inputs : List IterInput),
      List.Pairwise (fun a b => a.1 ≤ b.1) (indexedTrace k s inputs)) ∧
    (∀ (s : LoopState) (i : IterInput) (h : SqFormatHeader),
      Action.headerWrite h ∈ (outputStep s i).2 →
      ((outputStep s i).2 = [.lock, .unlock, .headerWrite h] ∨
        (outputStep s i).2 = [.lock, .unlock,
          .audioWrite (s.buffill + i.rendered), .headerWrite h]) ∧
        ((outputStep s i).1).buffill = 0) :=
  ⟨fun k s inputs => indexedTrace_pairwise inputs k s,
    fun s i _ hmem => ⟨headerWrite_mem_cases hmem, outputStep_buffill s i⟩⟩

/-- Witness for C3: a boundary iteration with two frames pending flushes
them strictly before the header and leaves the scratch buffer empty. -/
theorem c3_boundary_ordering_witness :
    (Action.headerWrite (build_format_header ⟨.PCM, .S32_LE, 44100, false⟩) ∈
      (outputStep initialLoopState ⟨true, ⟨.PCM, .S32_LE, 44100, false⟩, 2⟩).2) ∧
    (((outputStep initialLoopState ⟨true, ⟨.PCM, .S32_LE, 44100, false⟩, 2⟩).2 =
        [.lock, .unlock, .headerWrite (build_format_header ⟨.PCM, .S32_LE, 44100, false⟩)] ∨
      (outputStep initialLoopState ⟨true, ⟨.PCM, .S32_LE, 44100, false⟩, 2⟩).2 =
        [.lock, .unlock, .audioWrite (initialLoopState.buffill + 2),
          .headerWrite (build_format_header ⟨.PCM, .S32_LE, 44100, false⟩)]) ∧
      ((outputStep initialLoopState ⟨true, ⟨.PCM, .S32_LE, 44100, false⟩, 2⟩).1).buffill = 0) :=
  ⟨by decide, c3_boundary_ordering.2 initialLoopState _ _ (by decide)⟩

/-- C4: for every output format state, `build_format_header` produces a
fixed 16-byte header with magic "SQFH", version 1, channels 2 and 4 zero
reserved bytes; every DoP sub-variant maps to dsd_format 1 with bit_depth
24, DSD_U32_LE to 2 and DSD_U32_BE to 3 (both bit_depth 1); for PCM the
bit depth follows the fixed table 16-bit to 16, 24-bit packed to 24,
24-bit wide to 24, any other format to 32; there are no error conditions,
and unrecognized formats fall back to PCM 32-bit. -/
theorem c4_header_builder (d : DsdFormat) (f : SampleFormat) (r : Nat) (iv : Bool) :
    (headerBytes (build_format_header ⟨d, f, r, iv⟩)).length = 16 ∧
    (build_format_header ⟨d, f, r, iv⟩).magic = [0x53, 0x51, 0x46, 0x48] ∧
    (build_format_header ⟨d, f, r, iv⟩).version = 1 ∧
    (build_format_header ⟨d, f, r, iv⟩).channels = 2 ∧
    (build_format_header ⟨d, f, r, iv⟩).reserved = [0, 0, 0, 0] ∧
    ((build_format_header ⟨.DOP, f, r, iv⟩).dsd_format = 1 ∧
      (build_format_header ⟨.DOP, f, r, iv⟩).bit_depth = 24) ∧
    ((build_format_header ⟨.DOP_S24_LE, f, r, iv⟩).dsd_format = 1 ∧
      (build_format_header ⟨.DOP_S24_LE, f, r, iv⟩).bit_depth = 24) ∧
    ((build_format_header ⟨.DOP_S24_3LE, f, r, iv⟩).dsd_format = 1 ∧
      (build_format_header ⟨.DOP_S24_3LE, f, r, iv⟩).bit_depth = 24) ∧
    ((build_format_header ⟨.DSD_U32_LE, f, r, iv⟩).dsd_format = 2 ∧
      (build_format_header ⟨.DSD_U32_LE, f, r, iv⟩).bit_depth = 1) ∧
    ((build_format_header ⟨.DSD_U32_BE, f, r, iv⟩).dsd_format = 3 ∧
      (build_format_header ⟨.DSD_U32_BE, f, r, iv⟩).bit_depth = 1) ∧
    (build_format_header ⟨.PCM, .S16_LE, r, iv⟩).bit_depth = 16 ∧
    (build_format_header ⟨.PCM, .S24_3LE, r, iv⟩).bit_depth = 24 ∧
    (build_format_header ⟨.PCM, .S24_LE, r, iv⟩).bit_depth = 24 ∧
    (build_format_header ⟨.PCM, .S32_LE, r, iv⟩).bit_depth = 32 ∧
    (build_format_header ⟨.PCM, .otherFmt, r, iv⟩).bit_depth = 32 ∧
    (build_format_header ⟨.PCM, f, r, iv⟩).dsd_format = 0 ∧
    (build_format_header ⟨.otherDsd, f, r, iv⟩).dsd_format = 0 ∧
    (build_format_header ⟨.otherDsd, .otherFmt, r, iv⟩).bit_depth = 32 := by
  cases d <;> cases f <;>
    simp [build_format_header, headerBytes, le32]

/-- C5 counterexample: at the claim's concrete input (DoP at 88200 Hz)
the sample-rate field at offsets 8-11 does not hold the claimed bytes
0x2C 0x89 0x01 0x00 (those decode to 100652, not 88200). -/
theorem c5_dop_counterexample :
    ¬ ((headerBytes (build_format_header ⟨.DOP, .S24_LE, 88200, false⟩)).drop 8).take 4 =
      [0x2C, 0x89, 0x01, 0x00] := by decide

/-- C5 (amended): for a DoP-encoded stream at 88200 Hz the emitted header
has dsd_format 1, bit_depth 24, and its sample-rate field at offsets 8-11
holds 0x88 0x58 0x01 0x00, the little-endian encoding of 88200. -/
theorem c5_dop_88200 (f : SampleFormat) (iv : Bool) :
    (build_format_header ⟨.DOP, f, 88200, iv⟩).dsd_format = 1 ∧
    (build_format_header ⟨.DOP, f, 88200, iv⟩).bit_depth = 24 ∧
    ((headerBytes (build_format_header ⟨.DOP, f, 88200, iv⟩)).drop 8).take 4 =
      [0x88, 0x58, 0x01, 0x00] ∧
    le32 88200 = [0x88, 0x58, 0x01, 0x00] := by
  cases f <;> cases iv <;> decide

/-- C6: the output thread never writes to the channel while holding the
shared buffer lock: scanning any run's action trace with a lock-depth
counter, every audio and header write occurs at depth zero — after the
iteration's unlock and before the next iteration's lock. -/
theorem c6_no_write_under_lock (s : LoopState) (inputs : List IterInput) :
    writesOutsideLock 0 (loopTrace s inputs) = true :=
  writesOutsideLock_trace inputs s

/-- C7: in every streaming-state iteration in which no audio bytes are
pending in the scratch buffer and no header is pending, the thread
performs no channel write and sleeps the fixed 10 ms interval: the
iteration's actions are exactly lock, unlock, sleep. -/
theorem c7_idle_sleeps (s : LoopState) (i : IterInput)
    (hstream : (lockPhase s i).first_track_seen = true)
    (hempty : (lockPhase s i).buffill = 0)
    (hnohdr : headerPending s i = false) :
    (outputStep s i).2 = [Action.lock, Action.unlock, Action.sleep10ms] ∧
      channelWrites (outputStep s i).2 = [] := by
  have hsnd : (outputStep s i).2 = [Action.lock, Action.unlock, Action.sleep10ms] := by
    unfold outputStep
    simp [hstream, hempty, hnohdr]
  exact ⟨hsnd, by rw [hsnd]; rfl⟩

/-- Witness for C7: a streaming-state iteration with an empty scratch
buffer and no boundary sleeps without writing. -/
theorem c7_idle_sleeps_witness :
    ((lockPhase ⟨true, false, 44100, 32, 0, 0⟩
        ⟨false, ⟨.PCM, .S32_LE, 44100, false⟩, 0⟩).first_track_seen = true) ∧
    ((lockPhase ⟨true, false, 44100, 32, 0, 0⟩
        ⟨false, ⟨.PCM, .S32_LE, 44100, false⟩, 0⟩).buffill = 0) ∧
    (headerPending ⟨true, false, 44100, 32, 0, 0⟩
        ⟨false, ⟨.PCM, .S32_LE, 44100, false⟩, 0⟩ = false) ∧
    ((outputStep ⟨true, false, 44100, 32, 0, 0⟩
        ⟨false, ⟨.PCM, .S32_LE, 44100, false⟩, 0⟩).2 =
      [Action.lock, Action.unlock, Action.sleep10ms] ∧
      channelWrites (outputStep ⟨true, false, 44100, 32, 0, 0⟩
        ⟨false, ⟨.PCM, .S32_LE, 44100, false⟩, 0⟩).2 = []) :=
  ⟨by decide, by decide, by decide,
    c7_idle_sleeps _ _ (by decide) (by decide) (by decide)⟩

/-- C8: successful initialization defaults the output format to 32-bit,
overrides it to 16-bit, 24-bit packed or 32-bit exactly when the params
string is "16", "24" or "32", replaces an unset (zero) first sample-rate
hint with 44100 before handing it to the shared-buffer initializer, sets
`start_frames = FRAME_BLOCK * 2`, resets `buffill`, and spawns the output
thread. -/
theorem c8_init_config (params : Option String) (rates0 rate_delay frame_block : Nat) :
    (output_init_stdout true params rates0 rate_delay frame_block).config =
      some ⟨(if params = some "16" then SampleFormat.S16_LE
          else if params = some "24" then SampleFormat.S24_3LE
          else SampleFormat.S32_LE),
        frame_block * 2, rate_delay⟩ ∧
    (output_init_stdout true params rates0 rate_delay frame_block).common_rate0 =
      some (if rates0 = 0 then 44100 else rates0) ∧
    (output_init_stdout true params rates0 rate_delay frame_block).thread_spawned = true ∧
    (output_init_stdout true params rates0 rate_delay frame_block).buffill = some 0 := by
  by_cases h16 : params = some "16"
  · simp [output_init_stdout, h16]
  · by_cases h24 : params = some "24"
    · simp [output_init_stdout, h24, h16]
    · by_cases h32 : params = some "32" <;>
        simp [output_init_stdout, h16, h24, h32]

/-- C9: when the scratch-buffer allocation fails, initialization logs an
error and returns immediately: the output state is never written,
`buffill` is never set, the shared-buffer initializer is not called and
the output thread is not spawned. -/
theorem c9_alloc_failure (params : Option String) (rates0 rate_delay frame_block : Nat) :
    (output_init_stdout false params rates0 rate_delay frame_block).error_logged = true ∧
    (output_init_stdout false params rates0 rate_delay frame_block).buffill = none ∧
    (output_init_stdout false params rates0 rate_delay frame_block).config = none ∧
    (output_init_stdout false params rates0 rate_delay frame_block).common_rate0 = none ∧
    (output_init_stdout false params rates0 rate_delay frame_block).thread_spawned = false :=
  ⟨rfl, rfl, rfl, rfl, rfl⟩

/-- C10: the scratch-buffer fill count is zero at the start of every loop
iteration: every iteration ends with `buffill = 0`, so every state at the
top of an iteration of a run from the initial state has `buffill = 0`;
hence each render starts at offset 0, at most one block of frames ever
occupies the buffer, and the bytes used never exceed the allocated
`FRAME_BLOCK * BYTES_PER_FRAME`. -/
theorem c10_buffill_invariant :
    (∀ (s : LoopState) (i : IterInput), ((outputStep s i).1).buffill = 0) ∧
    (∀ (inputs : List IterInput) (s : LoopState),
      s ∈ loopStates initialLoopState inputs → s.buffill = 0) ∧
    (∀ (frame_block : Nat) (s : LoopState) (i : IterInput) (f : SampleFormat),
      s.buffill = 0 → i.rendered ≤ frame_block →
      (lockPhase s i).buffill * bytes_per_frame_of f ≤ frame_block * BYTES_PER_FRAME) := by
  refine ⟨outputStep_buffill, ?_, ?_⟩
  · have key : ∀ (inputs : List IterInput) (s0 : LoopState), s0.buffill = 0 →
        ∀ s ∈ loopStates s0 inputs, s.buffill = 0 := by
      intro inputs
      induction inputs with
      | nil =>
        intro s0 h0 s hs
        simp only [loopStates, List.mem_singleton] at hs
        rw [hs]
        exact h0
      | cons i rest ih =>
        intro s0 h0 s hs
        simp only [loopStates, List.mem_cons] at hs
        rcases hs with rfl | hs
        · exact h0
        · exact ih (outputStep s0 i).1 (outputStep_buffill s0 i) s hs
    exact fun inputs s hs => key inputs initialLoopState rfl s hs
  · intro fb s i f hbuf hr
    rw [lockPhase_buffill, hbuf, Nat.zero_add]
    have hbpf : bytes_per_frame_of f ≤ BYTES_PER_FRAME := by
      cases f <;> simp [bytes_per_frame_of, BYTES_PER_FRAME]
    exact Nat.mul_le_mul hr hbpf

/-- Witness for C10: one boundary iteration with two rendered frames at
32-bit output, against a 2048-frame block. -/
theorem c10_buffill_invariant_witness :
    ((outputStep initialLoopState ⟨true, ⟨.PCM, .S32_LE, 44100, false⟩, 2⟩).1).buffill = 0 ∧
    (initialLoopState ∈
        loopStates initialLoopState
          [(⟨true, ⟨.PCM, .S32_LE, 44100, false⟩, 2⟩ : IterInput)] ∧
      initialLoopState.buffill = 0) ∧
    (initialLoopState.buffill = 0 ∧ (2 : Nat) ≤ 2048 ∧
      (lockPhase initialLoopState ⟨true, ⟨.PCM, .S32_LE, 44100, false⟩, 2⟩).buffill *
        bytes_per_frame_of .S32_LE ≤ 2048 * BYTES_PER_FRAME) :=
  ⟨c10_buffill_invariant.1 _ _,
    ⟨by decide,
      c10_buffill_invariant.2.1
        [(⟨true, ⟨.PCM, .S32_LE, 44100, false⟩, 2⟩ : IterInput)]
        initialLoopState (by decide)⟩,
    ⟨rfl, by decide,
      c10_buffill_invariant.2.2 2048 initialLoopState
        ⟨true, ⟨.PCM, .S32_LE, 44100, false⟩, 2⟩ .S32_LE rfl (by decide)⟩⟩

end OutputStdout
